import Mathlib

/-!
Verification of the email bulk-verification pipeline (`main.go`).

The Go source is shallowly embedded: pure functions become Lean functions,
the worker/aggregator pipeline becomes list processing plus an explicit
transition system, the streaming JSON reader becomes a function over the
token stream of a JSON value, and the buffered writer becomes explicit
state passing with a write-success oracle.
-/

namespace EmailVerification

/-! ## Data model (from `main.go`)

`Result` embeds the fields of the external verifier's result that
`evaluateResult` inspects: `Syntax.Valid` (here `stxValid`), `Disposable`,
`Suggestion`, `HasMxRecords`, the optional `SMTP` sub-result and
`Reachable`. -/

/-- The SMTP sub-result (`result.SMTP`): `HostExists`, `Deliverable`, `Disabled`. -/
structure SMTPResult where
  hostExists : Bool
  deliverable : Bool
  disabled : Bool
deriving DecidableEq, Repr

/-- The adapter result fields read by `evaluateResult` in `main.go`. -/
structure Result where
  stxValid : Bool
  disposable : Bool
  suggestion : String
  hasMxRecords : Bool
  smtp : Option SMTPResult
  reachable : String
deriving DecidableEq, Repr

/-- Structure `EmailResult` from `main.go`: the outcome a worker sends on the result channel. -/
structure EmailResult where
  email : String
  isValid : Bool
  reason : String
deriving DecidableEq, Repr

/-- Structure `InvalidEmail` from `main.go`: one entry of the output `invalid_emails` list. -/
structure InvalidEmail where
  email : String
  reason : String
deriving DecidableEq, Repr

/-- Structure `Stats` from `main.go` (the `StartTime` field is wall-clock time and is
not part of the counter model). -/
structure Stats where
  totalChecked : Nat
  totalValid : Nat
  totalInvalid : Nat
deriving DecidableEq, Repr

/-! ## Verdict translation (`evaluateResult`, main.go:336-376) -/

/-- Direct embedding of `evaluateResult`: the chain of early returns in
`main.go`, in source order. Returns (validity, reason). -/
def evaluateResult (result : Result) : Bool × String :=
  if !result.stxValid then
    (false, "invalid email syntax")
  else if result.disposable then
    (false, "disposable email address")
  else if result.suggestion != "" then
    (false, "possible typo, did you mean: " ++ result.suggestion)
  else if !result.hasMxRecords then
    (false, "domain has no MX records")
  else
    match result.smtp with
    | some s =>
      if !s.hostExists then
        (false, "SMTP host does not exist")
      else if !s.deliverable then
        (false, "email is not deliverable")
      else if s.disabled then
        (false, "mailbox is disabled")
      else if result.reachable == "no" then
        (false, "email is not reachable")
      else
        (true, "")
    | none =>
      if result.reachable == "no" then
        (false, "email is not reachable")
      else
        (true, "")

/-- The verdict-translation policy as the spec words it (section 4.3):
seven rules tried in order, first match wins. Written independently of
`evaluateResult` to compare the two. -/
def verdictRules (r : Result) : Bool × String :=
  if r.stxValid = false then (false, "invalid email syntax")
  else if r.disposable = true then (false, "disposable email address")
  else if r.suggestion ≠ "" then (false, "possible typo, did you mean: " ++ r.suggestion)
  else if r.hasMxRecords = false then (false, "domain has no MX records")
  else if (∃ s, r.smtp = some s ∧ s.hostExists = false) then (false, "SMTP host does not exist")
  else if (∃ s, r.smtp = some s ∧ s.deliverable = false) then (false, "email is not deliverable")
  else if (∃ s, r.smtp = some s ∧ s.disabled = true) then (false, "mailbox is disabled")
  else if r.reachable = "no" then (false, "email is not reachable")
  else (true, "")

instance (r : Result) (p : SMTPResult → Prop) [DecidablePred p] :
    Decidable (∃ s, r.smtp = some s ∧ p s) := by
  cases h : r.smtp with
  | none => exact .isFalse (by simp)
  | some s => exact decidable_of_iff (p s) (by simp)

/-! ## Worker and per-job verification (`verifyEmail`, `worker`) -/

/-- Function `verifyEmail` from `main.go`: the adapter call is abstracted as a
function `verify` returning either an error message or a `Result`
(`verifier.Verify(email)`). On error the worker recovers locally,
producing an invalid outcome carrying the formatted error text. -/
def verifyEmail (verify : String → Except String Result) (email : String) : EmailResult :=
  match verify email with
  | .error e => { email := email, isValid := false, reason := "verification error: " ++ e }
  | .ok result =>
    let (isValid, reason) := evaluateResult result
    { email := email, isValid := isValid, reason := reason }

/-- Structure `EmailJob` from `main.go`. -/
structure EmailJob where
  index : Nat
  email : String
deriving DecidableEq, Repr

/-- The job loop of `worker` (main.go:301-309): each dequeued job yields
exactly one `EmailResult` on the result channel, in dequeue order (the
rate-limit sleep has no effect on the produced outcomes). -/
def workerRun (verify : String → Except String Result) (jobs : List EmailJob) :
    List EmailResult :=
  jobs.map (fun job => verifyEmail verify job.email)

/-- The dispatch loop of `processEmails` (main.go:274-276): one `EmailJob`
per address, in input order, with the running index. -/
def dispatchJobs (emails : List String) : List EmailJob :=
  emails.enum.map (fun p => { index := p.1, email := p.2 })

/-! ## Result collector (the aggregator goroutine, main.go:236-271)

The collector's state is the three counters, the accumulated
invalid-email list, and the list of progress reports it has emitted.
A progress report fires when `checked` is a multiple of the batch size
or more than five seconds have passed; the wall-clock condition is
abstracted as an oracle `timeDue` on the checked count. Each emitted
event records the pair (checked, totalEmails) feeding the percent /
rate / ETA computation of main.go:256-268. -/

/-- Collector state: counters, invalid list, emitted progress events. -/
structure Collect where
  stats : Stats
  invalidEmails : List InvalidEmail
  events : List (Nat × Nat)
deriving DecidableEq, Repr

/-- One iteration of the collector loop (main.go:240-270) for one
outcome taken from the result channel. -/
def collectStep (totalEmails batchSize : Nat) (timeDue : Nat → Bool)
    (st : Collect) (result : EmailResult) : Collect :=
  let stats :=
    if result.isValid then
      { st.stats with totalValid := st.stats.totalValid + 1 }
    else
      { st.stats with totalInvalid := st.stats.totalInvalid + 1 }
  let invalidEmails :=
    if result.isValid then st.invalidEmails
    else st.invalidEmails ++ [{ email := result.email, reason := result.reason }]
  let checked := stats.totalChecked + 1
  let stats := { stats with totalChecked := checked }
  let events :=
    if checked % batchSize == 0 || timeDue checked then
      st.events ++ [(checked, totalEmails)]
    else st.events
  { stats := stats, invalidEmails := invalidEmails, events := events }

/-- The collector processes the arrival-ordered outcome stream one at a
time, starting from zeroed stats and empty lists. -/
def collectAll (totalEmails batchSize : Nat) (timeDue : Nat → Bool)
    (results : List EmailResult) : Collect :=
  results.foldl (collectStep totalEmails batchSize timeDue)
    { stats := { totalChecked := 0, totalValid := 0, totalInvalid := 0 },
      invalidEmails := [], events := [] }

/-! ## Reader pre-allocation estimate (main.go:392-399) -/

/-- The pre-allocation hint of `readEmailsStreaming`: file size divided
by 35, then clamped below at 100 and above at 10,000,000, exactly as in
main.go:393-399. -/
def estimatedCapacity (size : Nat) : Nat :=
  let est := size / 35
  let est := if est < 100 then 100 else est
  if est > 10000000 then 10000000 else est

/-! ## Streaming JSON reader (`readEmailsStreaming`, main.go:379-450)

The input document is a JSON value; `encoding/json.Decoder.Token` yields
its tokens in order (delimiters and scalars), and `Decoder.More` reports
whether the next token is something other than a closing delimiter.
`readEmailsStreaming` is embedded as a function over the token stream:
it expects an opening object brace, then loops `for decoder.More()`
taking one token at a time, entering `readEmailsArr` as soon as a string
token equal to "emails" comes up. -/

/-- A token as produced by `encoding/json.Decoder.Token`. -/
inductive JsonTok where
  | lbrace
  | rbrace
  | lbrack
  | rbrack
  | str (s : String)
  | num (n : Int)
  | boolean (b : Bool)
  | null
deriving DecidableEq, Repr

/-- A JSON value (the parsed shape of the input document). -/
inductive JsonVal where
  | str (s : String)
  | num (n : Int)
  | boolean (b : Bool)
  | null
  | arr (elems : List JsonVal)
  | obj (members : List (String × JsonVal))

mutual

/-- The token stream `Decoder.Token` produces for a value. -/
def JsonVal.tokens : JsonVal → List JsonTok
  | .str s => [.str s]
  | .num n => [.num n]
  | .boolean b => [.boolean b]
  | .null => [.null]
  | .arr es => .lbrack :: tokensOfList es ++ [.rbrack]
  | .obj ms => .lbrace :: tokensOfMembers ms ++ [.rbrace]

/-- Token streams of consecutive array elements. -/
def tokensOfList : List JsonVal → List JsonTok
  | [] => []
  | v :: vs => v.tokens ++ tokensOfList vs

/-- Token streams of consecutive object members: key string, then value. -/
def tokensOfMembers : List (String × JsonVal) → List JsonTok
  | [] => []
  | (k, v) :: ms => .str k :: (v.tokens ++ tokensOfMembers ms)

end

/-- The element loop of main.go:432-438 after the array start was read:
`for decoder.More()` decode one string element; a non-string element
fails to decode into `string`; when `More` turns false the closing
bracket is read back (main.go:441-443) and the loop ends. -/
def readElems : List JsonTok → Except String (List String)
  | [] => .error "failed to decode email"
  | .rbrack :: _ => .ok []
  | .rbrace :: _ => .error "failed to read array end"
  | .str s :: ts =>
    match readElems ts with
    | .ok rest => .ok (s :: rest)
    | .error e => .error e
  | _ :: _ => .error "failed to decode email"

/-- main.go:422-444: after a token equal to `"emails"` was consumed, the
next token must open an array, then the elements are decoded. -/
def readEmailsArr : List JsonTok → Except String (List String)
  | .lbrack :: ts => readElems ts
  | [] => .error "failed to read array start"
  | _ :: _ => .error "expected array start"

/-- The scan loop of main.go:415-446: while `decoder.More()` holds, take
one token; if it is the string `"emails"`, read the array and stop;
otherwise keep scanning. `More` is false at end of input or when the
next token is a closing delimiter, and then the loop exits and the
function returns the (still empty) accumulated list. -/
def scanForEmails : List JsonTok → Except String (List String)
  | [] => .ok []
  | .rbrace :: _ => .ok []
  | .rbrack :: _ => .ok []
  | .str s :: ts => if s = "emails" then readEmailsArr ts else scanForEmails ts
  | _ :: ts => scanForEmails ts

/-- Function `readEmailsStreaming` (main.go:379-450) on an already-parsed input
document of the given file size: compute the pre-allocation hint (it
only sizes one slice allocation and cannot affect the returned value),
require the first token to open an object, then scan for the `"emails"`
member. -/
def readEmailsStreaming (size : Nat) (v : JsonVal) : Except String (List String) :=
  let _cap := estimatedCapacity size
  match v.tokens with
  | .lbrace :: ts => scanForEmails ts
  | _ => .error "expected object start"

/-! ## Streaming writer (`writeResultsStreaming`, main.go:453-492)

`bufio.Writer` keeps a sticky error: once a write fails, later writes
are no-ops returning the same error.  The Go code discards the value
returned by every `WriteString`/`Write`/`Fprintf` call and the deferred
`Flush` error, so the embedded code likewise drops the second component
of `wWriteString`.  Success of the i-th low-level write is an oracle
`ok : Nat → Bool`; creation success is the flag `createOk`. -/

/-- Buffered-writer state: bytes accepted so far, sticky error flag,
count of write calls made. -/
structure BufWriter where
  written : String
  err : Bool
  ops : Nat
deriving DecidableEq, Repr

/-- One `WriteString` call: a no-op returning the sticky error once the
writer has failed, otherwise appends the string or records the first
failure according to the oracle. -/
def wWriteString (ok : Nat → Bool) (w : BufWriter) (s : String) :
    BufWriter × Option String :=
  if w.err then ({ w with ops := w.ops + 1 }, some "write failed")
  else if ok w.ops then
    ({ written := w.written ++ s, err := false, ops := w.ops + 1 }, none)
  else ({ w with err := true, ops := w.ops + 1 }, some "write failed")

/-- Minimal JSON string quoting used by `json.Marshal` for the two
string fields (escapes quote and backslash; enough for the model, and
`json.Marshal` on a struct of two strings cannot fail). -/
def jsonQuote (s : String) : String :=
  "\"" ++ String.join (s.toList.map fun c =>
    if c = '"' then "\\\"" else if c = '\\' then "\\\\" else String.singleton c) ++ "\""

/-- Marshalling (`json.Marshal`) of one `InvalidEmail` (field tags `email`, `reason`). -/
def marshalInvalidEmail (e : InvalidEmail) : String :=
  "\x7b\"email\":" ++ jsonQuote e.email ++ ",\"reason\":" ++ jsonQuote e.reason ++ "\x7d"

/-- The entry loop of main.go:468-480: indentation, the marshalled
record, a comma after every entry but the last, then a newline.  All
write errors are discarded, as in the source. -/
def writeEntries (ok : Nat → Bool) (w : BufWriter) : List InvalidEmail → BufWriter
  | [] => w
  | [e] =>
    let w := (wWriteString ok w "    ").1
    let w := (wWriteString ok w (marshalInvalidEmail e)).1
    (wWriteString ok w "\n").1
  | e :: rest =>
    let w := (wWriteString ok w "    ").1
    let w := (wWriteString ok w (marshalInvalidEmail e)).1
    let w := (wWriteString ok w ",").1
    let w := (wWriteString ok w "\n").1
    writeEntries ok w rest

/-- Function `writeResultsStreaming` (main.go:453-492).  Returns the error value
the Go function returns, paired with the final writer state.  The only
early return after a successful create would be a `json.Marshal`
failure, which cannot happen for `InvalidEmail`; every buffered-write
result and the deferred `Flush` error are discarded, so after a
successful create the function returns `none`.  `checkedAt` and
`procSeconds` stand for the formatted timestamp and the `%.2f` elapsed
seconds. -/
def writeResultsStreaming (createOk : Bool) (ok : Nat → Bool)
    (invalidEmails : List InvalidEmail) (stats : Stats)
    (checkedAt procSeconds : String) : Option String × BufWriter :=
  if !createOk then (some "failed to create file", { written := "", err := false, ops := 0 })
  else
    let w : BufWriter := { written := "", err := false, ops := 0 }
    let w := (wWriteString ok w "\x7b\n").1
    let w := (wWriteString ok w "  \"invalid_emails\": [\n").1
    let w := writeEntries ok w invalidEmails
    let w := (wWriteString ok w "  ],\n").1
    let w := (wWriteString ok w ("  \"checked_at\": \"" ++ checkedAt ++ "\",\n")).1
    let w := (wWriteString ok w ("  \"total_checked\": " ++ toString stats.totalChecked ++ ",\n")).1
    let w := (wWriteString ok w ("  \"total_valid\": " ++ toString stats.totalValid ++ ",\n")).1
    let w := (wWriteString ok w ("  \"total_invalid\": " ++ toString stats.totalInvalid ++ ",\n")).1
    let w := (wWriteString ok w ("  \"processing_time_seconds\": " ++ procSeconds ++ "\n")).1
    let w := (wWriteString ok w "\x7d\n").1
    (none, w)

/-! ## Pipeline termination protocol (`processEmails`, main.go:216-287)

The concurrent structure of `processEmails` as a transition system over
the interleavings of the driver goroutine (which dispatches jobs, closes
the job channel, waits on the worker `WaitGroup`, closes the result
channel and waits for the collector), the `W` worker goroutines and the
collector goroutine.  Channel buffers are modelled as unbounded counters
(capacity only affects blocking, not the close-ordering safety claims).
The `sendResult` transition deliberately carries no guard on
`resultsClosed`: a send on a closed Go channel panics, and the
invariants show the transition can never fire from a reachable state in
which the result channel is closed. -/

/-- Global state of one `processEmails` run with its goroutines. -/
structure PipeState where
  sent : Nat
  jobQueue : Nat
  jobsClosed : Bool
  idle : Nat
  working : Nat
  exited : Nat
  resultQueue : Nat
  resultsClosed : Bool
  aggregated : Nat
  collectorDone : Bool
deriving DecidableEq, Repr

/-- Start state: no jobs sent, both channels open, all `W` workers idle
in their receive loop, collector running. -/
def initPipe (W : Nat) : PipeState :=
  { sent := 0, jobQueue := 0, jobsClosed := false,
    idle := W, working := 0, exited := 0,
    resultQueue := 0, resultsClosed := false,
    aggregated := 0, collectorDone := false }

/-- One interleaving step of the pipeline for `n` jobs and `W` workers.
The driver goroutine is sequential: it can send a job only before the
close at main.go:277, close the job channel only once all `n` jobs are
sent, and close the result channel (main.go:281) only after
`wg.Wait()` observed every worker exited. -/
inductive PipeStep (n W : Nat) : PipeState → PipeState → Prop where
  | sendJob (s : PipeState) :
      s.sent < n → s.jobsClosed = false →
      PipeStep n W s { s with sent := s.sent + 1, jobQueue := s.jobQueue + 1 }
  | closeJobs (s : PipeState) :
      s.sent = n → s.jobsClosed = false →
      PipeStep n W s { s with jobsClosed := true }
  | recvJob (s : PipeState) :
      0 < s.jobQueue → 0 < s.idle →
      PipeStep n W s { s with jobQueue := s.jobQueue - 1,
                              idle := s.idle - 1, working := s.working + 1 }
  | sendResult (s : PipeState) :
      0 < s.working →
      PipeStep n W s { s with working := s.working - 1, idle := s.idle + 1,
                              resultQueue := s.resultQueue + 1 }
  | workerExit (s : PipeState) :
      s.jobsClosed = true → s.jobQueue = 0 → 0 < s.idle →
      PipeStep n W s { s with idle := s.idle - 1, exited := s.exited + 1 }
  | closeResults (s : PipeState) :
      s.jobsClosed = true → s.exited = W → s.resultsClosed = false →
      PipeStep n W s { s with resultsClosed := true }
  | recvResult (s : PipeState) :
      0 < s.resultQueue → s.collectorDone = false →
      PipeStep n W s { s with resultQueue := s.resultQueue - 1,
                              aggregated := s.aggregated + 1 }
  | collectorExit (s : PipeState) :
      s.resultsClosed = true → s.resultQueue = 0 → s.collectorDone = false →
      PipeStep n W s { s with collectorDone := true }

/-- States reachable from the start state by interleaving steps. -/
inductive PipeReachable (n W : Nat) : PipeState → Prop where
  | init : PipeReachable n W (initPipe W)
  | step {s s' : PipeState} :
      PipeReachable n W s → PipeStep n W s s' → PipeReachable n W s'

/-- A concrete reachable state (zero jobs, one worker, right after the
driver closed the job channel) used to instantiate the close-ordering
theorem. -/
def pipeAfterCloseJobs : PipeState := { initPipe 1 with jobsClosed := true }

/-- The inductive invariant of the pipeline: worker accounting, job
accounting, and the close-ordering facts of the termination protocol. -/
def PipeInv (n W : Nat) (s : PipeState) : Prop :=
  s.idle + s.working + s.exited = W ∧
  s.sent ≤ n ∧
  (s.jobsClosed = true → s.sent = n) ∧
  (s.resultsClosed = true → s.jobsClosed = true ∧ s.exited = W) ∧
  (s.collectorDone = true → s.resultsClosed = true ∧ s.resultQueue = 0)

/-! ## Theorems -/

section Theorems

/-- C1: `evaluateResult` implements the spec's verdict-translation
policy: the seven rules applied in strict order, first matching rule
winning — in particular an invalid-syntax result is reported as
"invalid email syntax" even when it is also flagged disposable. -/
theorem evaluateResult_follows_rules :
    ∀ r : Result, evaluateResult r = verdictRules r := by
  intro r
  obtain ⟨stx, disp, sugg, mx, smtp, reach⟩ := r
  cases smtp with
  | none =>
    cases stx <;> cases disp <;> cases mx <;>
      by_cases hs : sugg = "" <;> by_cases hr : reach = "no" <;>
        simp [evaluateResult, verdictRules, hs, hr]
  | some s =>
    obtain ⟨he, hd, hdis⟩ := s
    cases stx <;> cases disp <;> cases mx <;>
      cases he <;> cases hd <;> cases hdis <;>
        by_cases hs : sugg = "" <;> by_cases hr : reach = "no" <;>
          simp [evaluateResult, verdictRules, hs, hr]

/-- C2: when the adapter invocation fails, `verifyEmail` recovers
locally: it returns one outcome with `isValid = false` whose reason
contains the error text, and the worker loop produces exactly one
outcome per dequeued job. -/
theorem verifyEmail_error_recovered
    (verify : String → Except String Result) (email e : String)
    (h : verify email = .error e) :
    (verifyEmail verify email).isValid = false ∧
    (∃ pre post, (verifyEmail verify email).reason = pre ++ e ++ post) ∧
    (∀ jobs : List EmailJob, (workerRun verify jobs).length = jobs.length) := by
  refine ⟨?_, ⟨"verification error: ", "", ?_⟩, ?_⟩
  · simp [verifyEmail, h]
  · simp [verifyEmail, h]
  · intro jobs
    simp [workerRun]

/-- Witness for C2 at a concrete failing adapter. -/
theorem verifyEmail_error_recovered_witness :
    ((fun _ : String => (Except.error "connection timeout" : Except String Result)) "x@y.z"
        = Except.error "connection timeout") ∧
    ((verifyEmail (fun _ => .error "connection timeout") "x@y.z").isValid = false ∧
      (∃ pre post,
        (verifyEmail (fun _ => .error "connection timeout") "x@y.z").reason
          = pre ++ "connection timeout" ++ post) ∧
      (∀ jobs : List EmailJob,
        (workerRun (fun _ => .error "connection timeout") jobs).length = jobs.length)) :=
  ⟨rfl, verifyEmail_error_recovered (fun _ => .error "connection timeout")
    "x@y.z" "connection timeout" rfl⟩

/-- C6: the reader's pre-allocation hint is the file size divided by 35
clamped to [100, 10,000,000]; a 1-byte file yields 100, a 10 GB file
yields 10,000,000; and the hint never affects (in particular never
fails) the read path — the parsed result is independent of it. -/
theorem estimatedCapacity_clamped :
    (∀ size : Nat, 100 ≤ estimatedCapacity size ∧ estimatedCapacity size ≤ 10000000) ∧
    estimatedCapacity 1 = 100 ∧
    estimatedCapacity 10737418240 = 10000000 ∧
    (∀ (s₁ s₂ : Nat) (v : JsonVal), readEmailsStreaming s₁ v = readEmailsStreaming s₂ v) := by
  refine ⟨?_, by norm_num [estimatedCapacity], by norm_num [estimatedCapacity], ?_⟩
  · intro size
    unfold estimatedCapacity
    constructor <;> (dsimp only; split_ifs <;> omega)
  · intro s₁ s₂ v
    rfl

/-- One collector iteration always bumps `total_checked` by one. -/
theorem collectStep_totalChecked (te bs : Nat) (td : Nat → Bool)
    (st : Collect) (r : EmailResult) :
    (collectStep te bs td st r).stats.totalChecked = st.stats.totalChecked + 1 := by
  cases hv : r.isValid <;> simp [collectStep, hv]

/-- One collector iteration bumps `total_valid` exactly on a valid outcome. -/
theorem collectStep_totalValid (te bs : Nat) (td : Nat → Bool)
    (st : Collect) (r : EmailResult) :
    (collectStep te bs td st r).stats.totalValid
      = st.stats.totalValid + (if r.isValid then 1 else 0) := by
  cases hv : r.isValid <;> simp [collectStep, hv]

/-- One collector iteration bumps `total_invalid` exactly on an invalid outcome. -/
theorem collectStep_totalInvalid (te bs : Nat) (td : Nat → Bool)
    (st : Collect) (r : EmailResult) :
    (collectStep te bs td st r).stats.totalInvalid
      = st.stats.totalInvalid + (if r.isValid then 0 else 1) := by
  cases hv : r.isValid <;> simp [collectStep, hv]

/-- One collector iteration appends to the invalid list exactly on an
invalid outcome, with that outcome's address and reason. -/
theorem collectStep_invalidEmails (te bs : Nat) (td : Nat → Bool)
    (st : Collect) (r : EmailResult) :
    (collectStep te bs td st r).invalidEmails
      = if r.isValid then st.invalidEmails
        else st.invalidEmails ++ [{ email := r.email, reason := r.reason }] := by
  cases hv : r.isValid <;> simp [collectStep, hv]

/-- Unfolded invariants of the collector fold, for an arbitrary initial
collector state: how each counter and the invalid list grow with the
processed stream. -/
theorem collect_foldl_counts (te bs : Nat) (td : Nat → Bool)
    (rs : List EmailResult) (st : Collect) :
    ((rs.foldl (collectStep te bs td) st).stats.totalChecked
        = st.stats.totalChecked + rs.length) ∧
    ((rs.foldl (collectStep te bs td) st).stats.totalValid
        + (rs.foldl (collectStep te bs td) st).stats.totalInvalid
        = st.stats.totalValid + st.stats.totalInvalid + rs.length) ∧
    ((rs.foldl (collectStep te bs td) st).stats.totalInvalid
        = st.stats.totalInvalid + (rs.filter (fun r => !r.isValid)).length) ∧
    ((rs.foldl (collectStep te bs td) st).invalidEmails
        = st.invalidEmails ++ (rs.filter (fun r => !r.isValid)).map
            (fun r => { email := r.email, reason := r.reason })) := by
  induction rs generalizing st with
  | nil => simp
  | cons r rs ih =>
    obtain ⟨ih1, ih2, ih3, ih4⟩ := ih (collectStep te bs td st r)
    rw [collectStep_totalChecked] at ih1
    rw [collectStep_totalValid, collectStep_totalInvalid] at ih2
    rw [collectStep_totalInvalid] at ih3
    rw [collectStep_invalidEmails] at ih4
    cases hv : r.isValid with
    | false =>
      simp only [hv] at ih2 ih3 ih4
      simp at ih2 ih3 ih4
      refine ⟨?_, ?_, ?_, ?_⟩
      · simp only [List.foldl_cons, List.length_cons]
        omega
      · simp only [List.foldl_cons, List.length_cons]
        omega
      · simp only [List.foldl_cons, List.filter_cons, hv, Bool.not_false, List.length_cons]
        simp only [if_pos trivial]
        simp only [List.length_cons]
        omega
      · simp only [List.foldl_cons, List.filter_cons, hv, Bool.not_false]
        simp only [if_pos trivial, List.map_cons]
        rw [ih4]
    | true =>
      simp only [hv] at ih2 ih3 ih4
      simp at ih2 ih3 ih4
      refine ⟨?_, ?_, ?_, ?_⟩
      · simp only [List.foldl_cons, List.length_cons]
        omega
      · simp only [List.foldl_cons, List.length_cons]
        omega
      · simp only [List.foldl_cons, List.filter_cons, hv, Bool.not_true]
        simp
        omega
      · simp only [List.foldl_cons, List.filter_cons, hv, Bool.not_true]
        simp
        exact ih4

/-- The outcomes a completed run feeds to the collector: the worker pool
maps `verifyEmail` over the dispatched jobs, whose emails are the input
list in order. -/
theorem workerRun_dispatchJobs (verify : String → Except String Result)
    (emails : List String) :
    workerRun verify (dispatchJobs emails) = emails.map (verifyEmail verify) := by
  have aux : ∀ (k : Nat) (l : List String),
      (List.enumFrom k l).map (fun p => verifyEmail verify p.2)
        = l.map (verifyEmail verify) := by
    intro k l
    induction l generalizing k with
    | nil => rfl
    | cons a l ih => simp [List.enumFrom, ih]
  simpa [workerRun, dispatchJobs, List.enum, List.map_map, Function.comp] using
    aux 0 emails

/-- C3: after the collector has processed any outcome stream,
`total_checked = total_valid + total_invalid` and `total_checked` is
the number of outcomes processed; for a completed run, whose arrival
stream is a permutation of the worker outcomes over all dispatched
jobs, `total_checked = total_valid + total_invalid` equals the number
of input addresses. -/
theorem totals_add_up (te bs : Nat) (td : Nat → Bool)
    (verify : String → Except String Result) (emails : List String)
    (arrival : List EmailResult)
    (h : arrival.Perm (workerRun verify (dispatchJobs emails))) :
    (∀ rs : List EmailResult,
      (collectAll te bs td rs).stats.totalChecked
          = (collectAll te bs td rs).stats.totalValid
            + (collectAll te bs td rs).stats.totalInvalid
        ∧ (collectAll te bs td rs).stats.totalChecked = rs.length) ∧
    (collectAll te bs td arrival).stats.totalChecked
        = (collectAll te bs td arrival).stats.totalValid
          + (collectAll te bs td arrival).stats.totalInvalid ∧
    (collectAll te bs td arrival).stats.totalChecked = emails.length := by
  have base : ∀ rs : List EmailResult,
      (collectAll te bs td rs).stats.totalChecked
          = (collectAll te bs td rs).stats.totalValid
            + (collectAll te bs td rs).stats.totalInvalid
        ∧ (collectAll te bs td rs).stats.totalChecked = rs.length := by
    intro rs
    obtain ⟨h1, h2, _, _⟩ := collect_foldl_counts te bs td rs
      { stats := { totalChecked := 0, totalValid := 0, totalInvalid := 0 },
        invalidEmails := [], events := [] }
    dsimp only at h1 h2
    refine ⟨?_, ?_⟩ <;> simp only [collectAll] <;> omega
  refine ⟨base, (base arrival).1, ?_⟩
  have hlen : arrival.length = emails.length := by
    rw [h.length_eq, workerRun_dispatchJobs, List.length_map]
  rw [(base arrival).2, hlen]

/-- Witness for C3 on a concrete two-address run. -/
theorem totals_add_up_witness :
    (([{ email := "a@b.c", isValid := false, reason := "verification error: boom" },
       { email := "d@e.f", isValid := false, reason := "verification error: boom" }]
        : List EmailResult).Perm
      (workerRun (fun _ => .error "boom") (dispatchJobs ["a@b.c", "d@e.f"]))) ∧
    (collectAll 2 1000 (fun _ => false)
        [{ email := "a@b.c", isValid := false, reason := "verification error: boom" },
         { email := "d@e.f", isValid := false, reason := "verification error: boom" }]
      ).stats.totalChecked = 2 := by
  have hp : ([{ email := "a@b.c", isValid := false, reason := "verification error: boom" },
       { email := "d@e.f", isValid := false, reason := "verification error: boom" }]
        : List EmailResult).Perm
      (workerRun (fun _ => .error "boom") (dispatchJobs ["a@b.c", "d@e.f"])) := by
    have : workerRun (fun _ => .error "boom") (dispatchJobs ["a@b.c", "d@e.f"])
        = [{ email := "a@b.c", isValid := false, reason := "verification error: boom" },
           { email := "d@e.f", isValid := false, reason := "verification error: boom" }] := rfl
    rw [this]
  exact ⟨hp,
    (totals_add_up 2 1000 (fun _ => false) (fun _ => .error "boom")
      ["a@b.c", "d@e.f"] _ hp).2.2⟩

/-- C4: after every processed outcome `total_invalid` equals the length
of the accumulated invalid-email list, and for a completed run the
invalid-email list is, up to arrival order, exactly the list of
(address, reason) records of the input addresses whose outcome was
invalid — no duplicates, no omissions. -/
theorem invalid_list_matches (te bs : Nat) (td : Nat → Bool)
    (verify : String → Except String Result) (emails : List String)
    (arrival : List EmailResult)
    (h : arrival.Perm (workerRun verify (dispatchJobs emails))) :
    (∀ rs : List EmailResult,
      (collectAll te bs td rs).stats.totalInvalid
        = (collectAll te bs td rs).invalidEmails.length) ∧
    (collectAll te bs td arrival).invalidEmails.Perm
      (((emails.map (verifyEmail verify)).filter (fun r => !r.isValid)).map
        (fun r => { email := r.email, reason := r.reason })) := by
  constructor
  · intro rs
    obtain ⟨_, _, h3, h4⟩ := collect_foldl_counts te bs td rs
      { stats := { totalChecked := 0, totalValid := 0, totalInvalid := 0 },
        invalidEmails := [], events := [] }
    dsimp only at h3 h4
    simp only [collectAll, h3, h4]
    simp
  · obtain ⟨_, _, _, h4⟩ := collect_foldl_counts te bs td arrival
      { stats := { totalChecked := 0, totalValid := 0, totalInvalid := 0 },
        invalidEmails := [], events := [] }
    dsimp only at h4
    simp only [collectAll, h4, List.nil_append]
    rw [workerRun_dispatchJobs] at h
    exact (h.filter _).map _

/-- Witness for C4 on a concrete run with one valid and one invalid outcome. -/
theorem invalid_list_matches_witness :
    (([{ email := "a@b.c", isValid := false, reason := "verification error: boom" }]
        : List EmailResult).Perm
      (workerRun (fun _ => .error "boom") (dispatchJobs ["a@b.c"]))) ∧
    ((∀ rs : List EmailResult,
      (collectAll 1 1000 (fun _ => false) rs).stats.totalInvalid
        = (collectAll 1 1000 (fun _ => false) rs).invalidEmails.length) ∧
    (collectAll 1 1000 (fun _ => false)
        [{ email := "a@b.c", isValid := false, reason := "verification error: boom" }]
      ).invalidEmails.Perm
      (((["a@b.c"].map (verifyEmail (fun _ => .error "boom"))).filter
          (fun r => !r.isValid)).map
        (fun r => { email := r.email, reason := r.reason }))) := by
  have hp : ([{ email := "a@b.c", isValid := false, reason := "verification error: boom" }]
      : List EmailResult).Perm
      (workerRun (fun _ => .error "boom") (dispatchJobs ["a@b.c"])) := by
    have : workerRun (fun _ => .error "boom") (dispatchJobs ["a@b.c"])
        = [{ email := "a@b.c", isValid := false, reason := "verification error: boom" }] := rfl
    rw [this]
  exact ⟨hp, invalid_list_matches 1 1000 (fun _ => false) (fun _ => .error "boom")
    ["a@b.c"] _ hp⟩

/-- C8: a completed run over the empty address list leaves all counters
at zero, an empty invalid list and no progress reports (hence no
percent / rate / ETA computation, so no division by zero in progress
reporting); the writer then succeeds and emits the document with an
empty `invalid_emails` array and `total_checked` 0. -/
theorem empty_input_run :
    (∀ (te bs : Nat) (td : Nat → Bool),
      collectAll te bs td []
        = { stats := { totalChecked := 0, totalValid := 0, totalInvalid := 0 },
            invalidEmails := [], events := [] }) ∧
    (∀ (ok : Nat → Bool) (ca ps : String),
      (writeResultsStreaming true ok []
        { totalChecked := 0, totalValid := 0, totalInvalid := 0 } ca ps).1 = none) ∧
    (writeResultsStreaming true (fun _ => true) []
        { totalChecked := 0, totalValid := 0, totalInvalid := 0 }
        "2025-01-01T00:00:00Z" "0.00").2.written
      = "\x7b\n  \"invalid_emails\": [\n  ],\n  \"checked_at\": \"2025-01-01T00:00:00Z\",\n  \"total_checked\": 0,\n  \"total_valid\": 0,\n  \"total_invalid\": 0,\n  \"processing_time_seconds\": 0.00\n\x7d\n" := by
  refine ⟨fun te bs td => rfl, fun ok ca ps => rfl, ?_⟩
  rfl

/-- C5: contrary to the claim, the scan loop of `readEmailsStreaming`
does not tolerate a preceding member whose value is a nested object: on
`\x7b"a": \x7b"x": 1\x7d, "emails": ["e@f.g"]\x7d` the loop's `decoder.More()` turns
false at the nested object's closing brace, the loop exits without ever
reaching the top-level "emails" member, and the function returns an
empty list with a nil error instead of `["e@f.g"]`. -/
theorem readEmails_misses_field_after_nested_member :
    readEmailsStreaming 40 (JsonVal.obj
      [("a", JsonVal.obj [("x", JsonVal.num 1)]),
       ("emails", JsonVal.arr [JsonVal.str "e@f.g"])])
      = Except.ok ([] : List String) ∧
    (Except.ok ([] : List String) : Except String (List String)) ≠ Except.ok ["e@f.g"] := by
  refine ⟨rfl, ?_⟩
  simp

/-- The scan loop never errors and finds nothing when the token string
`"emails"` does not occur in the remaining stream. -/
theorem scanForEmails_of_not_mem (ts : List JsonTok)
    (h : JsonTok.str "emails" ∉ ts) : scanForEmails ts = .ok [] := by
  induction ts with
  | nil => rfl
  | cons t ts ih =>
    have hts : JsonTok.str "emails" ∉ ts := fun hm => h (List.mem_cons_of_mem _ hm)
    cases t with
    | rbrace => rfl
    | rbrack => rfl
    | str s =>
      have hs : s ≠ "emails" := by
        intro he
        exact h (by simp [he])
      simp [scanForEmails, hs, ih hts]
    | lbrace => simpa [scanForEmails] using ih hts
    | lbrack => simpa [scanForEmails] using ih hts
    | num n => simpa [scanForEmails] using ih hts
    | boolean b => simpa [scanForEmails] using ih hts
    | null => simpa [scanForEmails] using ih hts

/-- C10 counterexample: the input object `\x7b"a": "emails"\x7d` contains no
member named "emails" at any depth, yet `readEmailsStreaming` mistakes
the string value for the key and fails with "expected array start"
instead of returning an empty list with a nil error. -/
theorem readEmails_errors_on_string_value :
    readEmailsStreaming 40 (JsonVal.obj [("a", JsonVal.str "emails")])
      = Except.error "expected array start" ∧
    (Except.error "expected array start" : Except String (List String))
      ≠ Except.ok ([] : List String) := by
  refine ⟨rfl, ?_⟩
  simp

/-- C10 (amended): if the token string `"emails"` occurs nowhere in the
document — no member name and no string value anywhere equals
`"emails"` — then `readEmailsStreaming` on an object returns an empty
list and a nil error, and the run proceeds with zero addresses. -/
theorem readEmails_no_emails_token_gives_empty
    (size : Nat) (ms : List (String × JsonVal))
    (h : JsonTok.str "emails" ∉ (JsonVal.obj ms).tokens) :
    readEmailsStreaming size (JsonVal.obj ms) = .ok [] := by
  have hscan : JsonTok.str "emails" ∉ tokensOfMembers ms ++ [JsonTok.rbrace] := by
    intro hm
    apply h
    simp only [JsonVal.tokens]
    exact List.mem_cons_of_mem _ hm
  simp only [readEmailsStreaming, JsonVal.tokens]
  exact scanForEmails_of_not_mem _ hscan

/-- Witness for the amended C10 on a concrete object without the token. -/
theorem readEmails_no_emails_token_gives_empty_witness :
    (JsonTok.str "emails" ∉ (JsonVal.obj [("a", JsonVal.num 1)]).tokens) ∧
    readEmailsStreaming 7 (JsonVal.obj [("a", JsonVal.num 1)]) = .ok [] := by
  have hnm : JsonTok.str "emails" ∉ (JsonVal.obj [("a", JsonVal.num 1)]).tokens := by
    simp [JsonVal.tokens, tokensOfMembers, tokensOfList]
  exact ⟨hnm, readEmails_no_emails_token_gives_empty 7 _ hnm⟩

/-- C7 counterexample: with a file that was created successfully but
every subsequent write failing, `writeResultsStreaming` still returns a
nil error although nothing of the document reached the file (the
buffered writer holds a sticky error and the source discards every
write result and the deferred flush error). -/
theorem writeResults_nil_despite_failed_writes :
    (writeResultsStreaming true (fun _ => false)
        [{ email := "a@b.c", reason := "invalid email syntax" }]
        { totalChecked := 1, totalValid := 0, totalInvalid := 1 }
        "2025-01-01T00:00:00Z" "0.10").1 = none ∧
    (writeResultsStreaming true (fun _ => false)
        [{ email := "a@b.c", reason := "invalid email syntax" }]
        { totalChecked := 1, totalValid := 0, totalInvalid := 1 }
        "2025-01-01T00:00:00Z" "0.10").2.err = true ∧
    (writeResultsStreaming true (fun _ => false)
        [{ email := "a@b.c", reason := "invalid email syntax" }]
        { totalChecked := 1, totalValid := 0, totalInvalid := 1 }
        "2025-01-01T00:00:00Z" "0.10").2.written = "" := by
  exact ⟨rfl, rfl, rfl⟩

/-- C7 (amended): `writeResultsStreaming` returns a non-nil error
exactly when the output file cannot be created; after a successful
create it returns nil unconditionally — every buffered write result and
the deferred flush error are discarded — so a nil return does not mean
the whole document was written. -/
theorem writeResults_error_iff_create_fails (createOk : Bool) (ok : Nat → Bool)
    (invalidEmails : List InvalidEmail) (stats : Stats) (ca ps : String) :
    ((writeResultsStreaming createOk ok invalidEmails stats ca ps).1 = none
      ↔ createOk = true) := by
  cases createOk <;> simp [writeResultsStreaming]

/-- The pipeline invariant is preserved by every interleaving step. -/
theorem pipeInv_step (n W : Nat) {s s' : PipeState}
    (hstep : PipeStep n W s s') (ih : PipeInv n W s) : PipeInv n W s' := by
  obtain ⟨i1, i2, i3, i4, i5⟩ := ih
  cases hstep with
  | sendJob h1 h2 =>
    refine ⟨i1, by dsimp only; omega, ?_, i4, i5⟩
    intro hc
    simp [h2] at hc
  | closeJobs h1 h2 =>
    refine ⟨i1, i2, fun _ => h1, ?_, i5⟩
    intro hc
    exact ⟨rfl, (i4 hc).2⟩
  | recvJob h1 h2 =>
    refine ⟨?_, i2, i3, i4, i5⟩
    dsimp only
    omega
  | sendResult h1 =>
    refine ⟨?_, i2, i3, i4, ?_⟩
    · dsimp only
      omega
    · intro hc
      obtain ⟨hrc, _⟩ := i5 hc
      obtain ⟨_, he⟩ := i4 hrc
      exact absurd h1 (by omega)
  | workerExit h1 h2 h3 =>
    refine ⟨?_, i2, i3, ?_, i5⟩
    · dsimp only
      omega
    · intro hc
      obtain ⟨_, he⟩ := i4 hc
      exact absurd h3 (by omega)
  | closeResults h1 h2 h3 =>
    refine ⟨i1, i2, i3, fun _ => ⟨h1, h2⟩, ?_⟩
    intro hc
    exact ⟨rfl, (i5 hc).2⟩
  | recvResult h1 h2 =>
    refine ⟨i1, i2, i3, i4, ?_⟩
    intro hc
    simp [h2] at hc
  | collectorExit h1 h2 h3 =>
    exact ⟨i1, i2, i3, i4, fun _ => ⟨h1, h2⟩⟩

/-- The pipeline invariant holds in the start state and hence in every
reachable state. -/
theorem pipeInv_of_reachable (n W : Nat) (s : PipeState)
    (h : PipeReachable n W s) : PipeInv n W s := by
  induction h with
  | init => simp [PipeInv, initPipe]
  | step hr hstep ih => exact pipeInv_step n W hstep ih

/-- C9: in every reachable state of the pipeline, the job channel is
closed only once the single dispatcher has enqueued all `n` jobs; the
result channel is closed only once every one of the `W` workers has
exited (so no worker is left that could send or close it); a step that
enqueues a job or a result can only fire while the respective channel
is open; the only step that closes the result channel is the driver's,
guarded on all workers having exited; and the collector finishes only
once the result channel is closed and drained. -/
theorem pipeline_close_ordering (n W : Nat) (s : PipeState)
    (h : PipeReachable n W s) :
    (s.jobsClosed = true → s.sent = n) ∧
    (s.resultsClosed = true → s.exited = W ∧ s.working = 0 ∧ s.idle = 0) ∧
    (∀ s', PipeStep n W s s' → s'.jobQueue > s.jobQueue → s.jobsClosed = false) ∧
    (∀ s', PipeStep n W s s' → s'.resultQueue > s.resultQueue →
      s.resultsClosed = false) ∧
    (∀ s', PipeStep n W s s' →
      s'.resultsClosed = true → s.resultsClosed = false →
      s.jobsClosed = true ∧ s.exited = W) ∧
    (s.collectorDone = true → s.resultsClosed = true ∧ s.resultQueue = 0) := by
  obtain ⟨i1, i2, i3, i4, i5⟩ := pipeInv_of_reachable n W s h
  have hclosed : s.resultsClosed = true → s.exited = W ∧ s.working = 0 ∧ s.idle = 0 := by
    intro hc
    obtain ⟨_, he⟩ := i4 hc
    exact ⟨he, by omega, by omega⟩
  refine ⟨i3, hclosed, ?_, ?_, ?_, i5⟩
  · intro s' hstep hq
    cases hstep with
    | sendJob h1 h2 => exact h2
    | closeJobs h1 h2 =>
      exfalso
      dsimp only at hq
      omega
    | recvJob h1 h2 =>
      exfalso
      dsimp only at hq
      omega
    | sendResult h1 =>
      exfalso
      dsimp only at hq
      omega
    | workerExit h1 h2 h3 =>
      exfalso
      dsimp only at hq
      omega
    | closeResults h1 h2 h3 =>
      exfalso
      dsimp only at hq
      omega
    | recvResult h1 h2 =>
      exfalso
      dsimp only at hq
      omega
    | collectorExit h1 h2 h3 =>
      exfalso
      dsimp only at hq
      omega
  · intro s' hstep hq
    cases hstep with
    | sendResult h1 =>
      cases hrc : s.resultsClosed with
      | false => rfl
      | true => exact absurd h1 (by have := (hclosed hrc).2.1; omega)
    | sendJob h1 h2 =>
      exfalso
      dsimp only at hq
      omega
    | closeJobs h1 h2 =>
      exfalso
      dsimp only at hq
      omega
    | recvJob h1 h2 =>
      exfalso
      dsimp only at hq
      omega
    | workerExit h1 h2 h3 =>
      exfalso
      dsimp only at hq
      omega
    | closeResults h1 h2 h3 =>
      exfalso
      dsimp only at hq
      omega
    | recvResult h1 h2 =>
      exfalso
      dsimp only at hq
      omega
    | collectorExit h1 h2 h3 =>
      exfalso
      dsimp only at hq
      omega
  · intro s' hstep hc hopen
    cases hstep with
    | closeResults h1 h2 h3 => exact ⟨h1, h2⟩
    | sendJob h1 h2 =>
      exfalso
      dsimp only at hc
      simp [hopen] at hc
    | closeJobs h1 h2 =>
      exfalso
      dsimp only at hc
      simp [hopen] at hc
    | recvJob h1 h2 =>
      exfalso
      dsimp only at hc
      simp [hopen] at hc
    | sendResult h1 =>
      exfalso
      dsimp only at hc
      simp [hopen] at hc
    | workerExit h1 h2 h3 =>
      exfalso
      dsimp only at hc
      simp [hopen] at hc
    | recvResult h1 h2 =>
      exfalso
      dsimp only at hc
      simp [hopen] at hc
    | collectorExit h1 h2 h3 =>
      exfalso
      dsimp only at hc
      simp [hopen] at hc

/-- Witness for C9 at the reachable state right after the driver closed
the job channel of a zero-job, one-worker run. -/
theorem pipeline_close_ordering_witness :
    (pipeAfterCloseJobs.jobsClosed = true → pipeAfterCloseJobs.sent = 0) ∧
    (pipeAfterCloseJobs.resultsClosed = true →
      pipeAfterCloseJobs.exited = 1 ∧ pipeAfterCloseJobs.working = 0 ∧
        pipeAfterCloseJobs.idle = 0) ∧
    (∀ s', PipeStep 0 1 pipeAfterCloseJobs s' →
      s'.jobQueue > pipeAfterCloseJobs.jobQueue →
      pipeAfterCloseJobs.jobsClosed = false) ∧
    (∀ s', PipeStep 0 1 pipeAfterCloseJobs s' →
      s'.resultQueue > pipeAfterCloseJobs.resultQueue →
      pipeAfterCloseJobs.resultsClosed = false) ∧
    (∀ s', PipeStep 0 1 pipeAfterCloseJobs s' →
      s'.resultsClosed = true → pipeAfterCloseJobs.resultsClosed = false →
      pipeAfterCloseJobs.jobsClosed = true ∧ pipeAfterCloseJobs.exited = 1) ∧
    (pipeAfterCloseJobs.collectorDone = true →
      pipeAfterCloseJobs.resultsClosed = true ∧ pipeAfterCloseJobs.resultQueue = 0) :=
  pipeline_close_ordering 0 1 pipeAfterCloseJobs
    (PipeReachable.step PipeReachable.init (PipeStep.closeJobs (initPipe 1) rfl rfl))

end Theorems

end EmailVerification
